import Mathlib

/-
  Verification of the workflow-automation core of Coderrob/mastra-pilot
  (src/packages/core): base-step.ts, workflow.ts, runner.ts,
  runner-adapter.ts, workflow-facade.ts, adapters/mastra-adapter.ts.

  The embedding models JavaScript runtime values with the inductive
  type Value (enough structure for truthiness, String(...) coercion and
  instanceof Error, which are the only value-level operations the core
  performs), Error objects with ErrorV, zod schemas with Schema (a
  parse that either passes or reports a ZodError), and a possibly
  throwing computation with Outcome.  Promise rejection and a thrown
  exception are the same thing in the source (async/await), and both
  are modelled by Outcome.thrown.  Logging and wall-clock durations are
  side effects that never influence any returned data, so logger calls
  and the duration fields are omitted from the embedding; the metadata
  maps are kept.
-/

/-- Model of a JavaScript Error object.  The name field holds the
constructor name ("Error", "ZodError", "WorkflowExecutionError", ...);
workflowId models the extra field of WorkflowExecutionError
(src/packages/core/src/errors.ts) and is none for plain errors. -/
structure ErrorV where
  name : String := "Error"
  message : String
  workflowId : Option String := none
  deriving DecidableEq, Repr

/-- Model of a JavaScript runtime value.  The obj constructor stands
for any other object (always truthy, stringifies to [object Object]);
the core never inspects the fields of data values, so no more
structure is needed. -/
inductive Value where
  | undef
  | null
  | bool (b : Bool)
  | num (n : Int)
  | str (s : String)
  | err (e : ErrorV)
  | obj (tag : Nat)
  deriving DecidableEq, Repr

/-- JavaScript truthiness of a value (the semantics of using it as an
if/&& condition). -/
def truthy : Value → Bool
  | .undef => false
  | .null => false
  | .bool b => b
  | .num n => decide (n ≠ 0)
  | .str s => decide (s ≠ "")
  | .err _ => true
  | .obj _ => true

/-- JavaScript nullish test (the semantics of the ?? operator). -/
def nullish : Value → Bool
  | .undef => true
  | .null => true
  | _ => false

/-- The ?? operator: a ?? b. -/
def coalesce (a b : Value) : Value :=
  if nullish a then b else a

/-- Model of the JavaScript String(...) coercion, as applied to a
thrown non-Error value in handleError. -/
def jsString : Value → String
  | .undef => "undefined"
  | .null => "null"
  | .bool b => if b then "true" else "false"
  | .num n => toString n
  | .str s => s
  | .err e => e.name ++ ": " ++ e.message
  | .obj _ => "[object Object]"

/-- Whether a value is an Error instance (instanceof Error). -/
def isErrV : Value → Bool
  | .err _ => true
  | _ => false

/-- The coercion performed by handleError / createErrorResult:
error instanceof Error ? error : new Error(String(error)). -/
def toError : Value → ErrorV
  | .err e => e
  | v => { name := "Error", message := jsString v }

/-- A possibly throwing computation: ok is a normal return, thrown is
a thrown (or rejected-with) JavaScript value. -/
inductive Outcome (α : Type) where
  | ok (a : α)
  | thrown (v : Value)
  deriving DecidableEq, Repr

/-- Model of a zod schema: parse either passes (none) or throws a
ZodError (some e).  The parsed value itself is discarded by every call
site in the core, so only the pass/fail outcome is modelled. -/
structure Schema where
  parse : Value → Option ErrorV

/-- The typeof-style name zod reports for a received value. -/
def typeofName : Value → String
  | .undef => "undefined"
  | .null => "null"
  | .bool _ => "boolean"
  | .num _ => "number"
  | .str _ => "string"
  | .err _ => "object"
  | .obj _ => "object"

/-- Model of z.number(): accepts numbers, otherwise reports the
zod-style mismatch message naming the expected type. -/
def numberSchema : Schema :=
  ⟨fun v =>
    match v with
    | .num _ => none
    | other =>
      some { name := "ZodError"
             message := "Expected number, received " ++ typeofName other }⟩

/-- Execution context passed into a step run (base-step.ts
IStepContext).  The logger is omitted (see the file comment); the
caller-supplied metadata map is kept. -/
structure IStepContext where
  metadata : List (String × Value) := []
  deriving DecidableEq, Repr

/-- StepResult<TOut> from base-step.ts.  An absent data field is the
same as undefined in the source, so data defaults to Value.undef. -/
structure StepResult where
  success : Bool
  data : Value := .undef
  error : Option ErrorV := none
  metadata : List (String × Value) := []
  deriving DecidableEq, Repr

/-- BaseStep from base-step.ts: name, optional input/output zod
schemas and the abstract run implementation (the wrapped function a
concrete subclass provides).  run may throw an arbitrary value. -/
structure BaseStep where
  name : String
  inputSchema : Option Schema := none
  outputSchema : Option Schema := none
  run : Value → IStepContext → Outcome StepResult

/-- BaseStep.validateInput: if (this.inputSchema) this.inputSchema.parse(input).
Returns the ZodError it would throw, if any. -/
def BaseStep.validateInput (s : BaseStep) (input : Value) : Option ErrorV :=
  match s.inputSchema with
  | some sch => sch.parse input
  | none => none

/-- BaseStep.validateOutput: if (this.outputSchema && data) this.outputSchema.parse(data).
Note the source guards on the truthiness of data, not on its mere
definedness and not on the success flag. -/
def BaseStep.validateOutput (s : BaseStep) (data : Value) : Option ErrorV :=
  match s.outputSchema with
  | some sch => if truthy data then sch.parse data else none
  | none => none

/-- The body of the try block of BaseStep.execute: validate input,
run, validate output; the first throw aborts the body. -/
def BaseStep.tryBody (s : BaseStep) (input : Value) (ctx : IStepContext) :
    Outcome StepResult :=
  match s.validateInput input with
  | some e => .thrown (.err e)
  | none =>
    match s.run input ctx with
    | .thrown v => .thrown v
    | .ok result =>
      match s.validateOutput result.data with
      | some e => .thrown (.err e)
      | none => .ok result

/-- BaseStep.handleError: coerce the caught value to an Error and
return a failure result. -/
def BaseStep.handleError (v : Value) : StepResult :=
  { success := false, error := some (toError v) }

/-- BaseStep.execute: the try/catch wrapper around tryBody.  The
function is total, which is exactly the never-throws guarantee of the
source: the catch arm returns a StepResult instead of rethrowing. -/
def BaseStep.execute (s : BaseStep) (input : Value) (ctx : IStepContext) :
    StepResult :=
  match s.tryBody input ctx with
  | .ok r => r
  | .thrown v => BaseStep.handleError v

/-- StepDefinition from workflow.ts: a step plus the label it was
registered under. -/
structure StepDefinition where
  step : BaseStep
  name : String

/-- Workflow from workflow.ts: name, ordered step list and the
continue-on-error policy (default false). -/
structure Workflow where
  name : String
  steps : List StepDefinition
  continueOnError : Bool := false

/-- WorkflowResult from workflow.ts.  The duration field is wall-clock
time and is omitted (see the file comment). -/
structure WorkflowResult where
  success : Bool
  results : List StepResult
  error : Option ErrorV := none
  deriving DecidableEq, Repr

/-- Workflow.shouldStopExecution: !result.success && !this.continueOnError. -/
def Workflow.shouldStopExecution (w : Workflow) (result : StepResult) : Bool :=
  !result.success && !w.continueOnError

/-- The loop of Workflow.executeSteps, recursing over the remaining
step list with the current input: execute the step, append the
result, stop early when shouldStopExecution holds, otherwise continue
with currentInput = result.data. -/
def Workflow.executeStepsAux (w : Workflow) :
    List StepDefinition → Value → IStepContext → List StepResult
  | [], _, _ => []
  | sd :: rest, currentInput, ctx =>
    let result := sd.step.execute currentInput ctx
    if w.shouldStopExecution result then [result]
    else result :: w.executeStepsAux rest result.data ctx

/-- Workflow.executeSteps applied to the full configured step list. -/
def Workflow.executeSteps (w : Workflow) (initialInput : Value)
    (ctx : IStepContext) : List StepResult :=
  w.executeStepsAux w.steps initialInput ctx

/-- Workflow.createResult: success = results.every(r => r.success),
error = results.find(r => !r.success)?.error. -/
def Workflow.createResult (results : List StepResult) : WorkflowResult :=
  { success := results.all (fun r => r.success)
    results := results
    error := (results.find? (fun r => !r.success)).bind (fun r => r.error) }

/-- Workflow.execute: build the execution context from the supplied
metadata, run the step loop, aggregate with createResult. -/
def Workflow.execute (w : Workflow) (initialInput : Value)
    (metadata : List (String × Value)) : WorkflowResult :=
  Workflow.createResult (w.executeSteps initialInput ⟨metadata⟩)

/-- Instrumented variant of the executeSteps loop that also records
the input value each executed step received.  Used to state the
data-piping claims; traceSteps_map_snd ties it back to the real loop. -/
def Workflow.traceStepsAux (w : Workflow) :
    List StepDefinition → Value → IStepContext → List (Value × StepResult)
  | [], _, _ => []
  | sd :: rest, currentInput, ctx =>
    let result := sd.step.execute currentInput ctx
    if w.shouldStopExecution result then [(currentInput, result)]
    else (currentInput, result) :: w.traceStepsAux rest result.data ctx

/-- The instrumented loop on the full step list and the context built
by execute. -/
def Workflow.traceSteps (w : Workflow) (initialInput : Value)
    (metadata : List (String × Value)) : List (Value × StepResult) :=
  w.traceStepsAux w.steps initialInput ⟨metadata⟩

/-- A named registry is an exact-key association list (model of the
Map<string, _> fields); find? returns the first binding. -/
def lookupReg {α : Type} (reg : List (String × α)) (key : String) : Option α :=
  (reg.find? (fun p => p.fst == key)).map Prod.snd

/-- One entry of the config array of Runner.runWorkflowsSequential /
runWorkflowsParallel: name plus optional input and metadata (absent
input is undefined). -/
structure RunConfig where
  name : String
  input : Value := .undef
  metadata : List (String × Value) := []

/-- Runner from runner.ts: the registry of workflows by name. -/
structure Runner where
  workflows : List (String × Workflow) := []

/-- The single-quote character, written via its code point so the
embedded message string matches the source template literal. -/
def squote : String := String.singleton (Char.ofNat 39)

/-- The not-found message of runner.ts and runner-adapter.ts. -/
def runnerNotFoundMessage (name : String) : String :=
  ("Workflow " ++ squote) ++ name ++ (squote ++ " not found")

/-- Runner.runWorkflow: look up by name; throw a plain Error when
absent, otherwise delegate to the workflow.  The thrown error is the
Outcome.thrown arm; nothing is executed in that case. -/
def Runner.runWorkflow (rn : Runner) (name : String) (input : Value)
    (metadata : List (String × Value)) : Outcome WorkflowResult :=
  match lookupReg rn.workflows name with
  | none => .thrown (.err { name := "Error", message := runnerNotFoundMessage name })
  | some w => .ok (w.execute input metadata)

/-- Runner.hasValidResults: result.success && result.results.length > 0. -/
def Runner.hasValidResults (result : WorkflowResult) : Bool :=
  result.success && decide (result.results.length > 0)

/-- Runner.extractNextInput: the data of the last step result when
hasValidResults, otherwise the fallback (the at(-1) lookup cannot miss
when the length guard holds, and the source then unconditionally takes
lastResult.data since a StepResult object is truthy). -/
def Runner.extractNextInput (result : WorkflowResult) (fallback : Value) : Value :=
  if Runner.hasValidResults result then
    match result.results.getLast? with
    | some lastResult => lastResult.data
    | none => fallback
  else fallback

/-- The loop of Runner.runWorkflowsSequential, carrying currentInput:
run each entry with input ?? currentInput, collect the result, update
currentInput via extractNextInput.  A thrown not-found error aborts
the whole run (the source loop does not catch it). -/
def Runner.seqAux (rn : Runner) :
    List RunConfig → Value → Outcome (List WorkflowResult)
  | [], _ => .ok []
  | cfg :: rest, currentInput =>
    match rn.runWorkflow cfg.name (coalesce cfg.input currentInput) cfg.metadata with
    | .thrown v => .thrown v
    | .ok result =>
      match rn.seqAux rest (Runner.extractNextInput result currentInput) with
      | .thrown v => .thrown v
      | .ok results => .ok (result :: results)

/-- Runner.runWorkflowsSequential: currentInput starts undefined. -/
def Runner.runWorkflowsSequential (rn : Runner) (cfgs : List RunConfig) :
    Outcome (List WorkflowResult) :=
  rn.seqAux cfgs (Value.undef)

/-- One recorded entry of the instrumented sequential loop: the
fallback (currentInput) in force when the entry started, the input
value actually passed to the workflow, and the result. -/
structure RSeqStep where
  fallback : Value
  passed : Value
  result : WorkflowResult
  deriving DecidableEq, Repr

/-- Instrumented variant of the Runner sequential loop recording, for
every entry, the fallback and the input actually passed. -/
def Runner.seqTraceAux (rn : Runner) :
    List RunConfig → Value → Outcome (List RSeqStep)
  | [], _ => .ok []
  | cfg :: rest, currentInput =>
    match rn.runWorkflow cfg.name (coalesce cfg.input currentInput) cfg.metadata with
    | .thrown v => .thrown v
    | .ok result =>
      match rn.seqTraceAux rest (Runner.extractNextInput result currentInput) with
      | .thrown v => .thrown v
      | .ok tl =>
        .ok ({ fallback := currentInput
               passed := coalesce cfg.input currentInput
               result := result } :: tl)

/-- IStepInstance from workflow-provider.ts, as produced by
MastraAdapter.createStep or supplied ad hoc: id, stored schemas and a
possibly throwing execute. -/
structure MStepInstance where
  id : String
  inputSchema : Option Schema := none
  outputSchema : Option Schema := none
  execute : Value → IStepContext → Outcome Value

/-- IWorkflowInstance from workflow-provider.ts: id, optional name,
step list and an optional execute override (present on instances built
by MastraAdapter.createWorkflow, possibly absent on ad hoc ones). -/
structure MWorkflowInstance where
  id : String
  name : Option String := none
  steps : List MStepInstance := []
  execute : Option (Value → IStepContext → Outcome Value) := none

/-- IWorkflowExecutionResult from workflow-facade.ts, as produced by
the MastraAdapter (the duration field is omitted, see the file
comment).  The results field models the frozen array the adapter
returns; freezing is intrinsic to the embedding. -/
structure IWorkflowExecutionResult where
  success : Bool
  data : Value := .undef
  error : Option ErrorV := none
  results : List Value := []
  deriving DecidableEq, Repr

/-- MastraAdapter.validateWithSchema: safeParse and, on failure, throw
a plain Error with the staged message. -/
def MastraAdapter.validateWithSchema (sch : Schema) (data : Value)
    (pfx : String) : Option ErrorV :=
  match sch.parse data with
  | none => none
  | some zerr =>
    some { name := "Error", message := pfx ++ " validation failed: " ++ zerr.message }

/-- MastraAdapter.validateInput / validateOutput: skip entirely when
no schema was configured (the effective default schema is never
consulted in that case), otherwise validateWithSchema. -/
def MastraAdapter.validateOpt (schema : Option Schema) (data : Value)
    (pfx : String) : Option ErrorV :=
  match schema with
  | none => none
  | some sch => MastraAdapter.validateWithSchema sch data pfx

/-- IStepConfig from workflow-provider.ts (description omitted: it is
never consulted). -/
structure MStepConfig where
  id : String
  inputSchema : Option Schema := none
  outputSchema : Option Schema := none
  execute : Value → IStepContext → Outcome Value

/-- MastraAdapter.createStep: wrap the user function with input and
output validation; a validation failure is a throw. -/
def MastraAdapter.createStep (cfg : MStepConfig) : MStepInstance :=
  { id := cfg.id
    inputSchema := cfg.inputSchema
    outputSchema := cfg.outputSchema
    execute := fun input ctx =>
      match MastraAdapter.validateOpt cfg.inputSchema input "Input" with
      | some e => .thrown (.err e)
      | none =>
        match cfg.execute input ctx with
        | .thrown v => .thrown v
        | .ok result =>
          match MastraAdapter.validateOpt cfg.outputSchema result "Output" with
          | some e => .thrown (.err e)
          | none => .ok result }

/-- MastraAdapter.executeStepsSequentially: pipe each output into the
next step; a throw aborts the chain. -/
def MastraAdapter.executeStepsSequentially :
    List MStepInstance → Value → IStepContext → Outcome Value
  | [], input, _ => .ok input
  | s :: rest, input, ctx =>
    match s.execute input ctx with
    | .thrown v => .thrown v
    | .ok output => MastraAdapter.executeStepsSequentially rest output ctx

/-- IWorkflowConfig from workflow-provider.ts. -/
structure MWorkflowConfig where
  id : String
  name : Option String := none
  inputSchema : Option Schema := none
  outputSchema : Option Schema := none
  steps : List MStepInstance := []

/-- MastraAdapter.createWorkflow: the instance carries an execute
override that validates the workflow input, runs the steps
sequentially, and validates the workflow output. -/
def MastraAdapter.createWorkflow (cfg : MWorkflowConfig) : MWorkflowInstance :=
  { id := cfg.id
    name := cfg.name
    steps := cfg.steps
    execute := some (fun input ctx =>
      match MastraAdapter.validateOpt cfg.inputSchema input "Workflow input" with
      | some e => .thrown (.err e)
      | none =>
        match MastraAdapter.executeStepsSequentially cfg.steps input ctx with
        | .thrown v => .thrown v
        | .ok output =>
          match MastraAdapter.validateOpt cfg.outputSchema output "Workflow output" with
          | some e => .thrown (.err e)
          | none => .ok output) }

/-- MastraAdapter.executeWorkflow: use the execute override when the
instance has one, otherwise run its steps sequentially. -/
def MastraAdapter.executeWorkflow (w : MWorkflowInstance) (input : Value)
    (ctx : IStepContext) : Outcome Value :=
  match w.execute with
  | some f => f input ctx
  | none => MastraAdapter.executeStepsSequentially w.steps input ctx

/-- MastraAdapter.createSuccessResult: data, no error, frozen empty
results array. -/
def MastraAdapter.createSuccessResult (data : Value) : IWorkflowExecutionResult :=
  { success := true, data := data, error := none, results := [] }

/-- MastraAdapter.createErrorResult: no data, error coerced to an
Error, frozen empty results array. -/
def MastraAdapter.createErrorResult (err : Value) : IWorkflowExecutionResult :=
  { success := false, data := .undef, error := some (toError err), results := [] }

/-- MastraAdapter.execute: try executeWorkflow, catching every throw.
Totality of this function is the never-rejects guarantee. -/
def MastraAdapter.execute (w : MWorkflowInstance) (input : Value)
    (ctx : IStepContext) : IWorkflowExecutionResult :=
  match MastraAdapter.executeWorkflow w input ctx with
  | .ok data => MastraAdapter.createSuccessResult data
  | .thrown v => MastraAdapter.createErrorResult v

/-- IWorkflowProvider from workflow-provider.ts, reduced to the one
operation the execution-path claims exercise.  A general provider may
reject, hence the Outcome codomain. -/
structure IWorkflowProvider where
  execute : MWorkflowInstance → Value → IStepContext → Outcome IWorkflowExecutionResult

/-- The MastraAdapter packaged as a provider (the default provider of
WorkflowFacade and RunnerAdapter); its execute never throws. -/
def mastraProvider : IWorkflowProvider :=
  { execute := fun w input ctx => .ok (MastraAdapter.execute w input ctx) }

/-- The workflowIdOrInstance argument of WorkflowFacade.execute. -/
inductive WorkflowIdOrInstance where
  | id (s : String)
  | inst (w : MWorkflowInstance)

/-- WorkflowExecutionError from errors.ts: name tag plus the carried
workflowId. -/
def workflowExecutionError (msg : String) (workflowId : String) : ErrorV :=
  { name := "WorkflowExecutionError", message := msg, workflowId := some workflowId }

/-- WorkflowFacade from workflow-facade.ts: the active provider and
the registry of frozen workflow instances. -/
structure WorkflowFacade where
  provider : IWorkflowProvider
  workflows : List (String × MWorkflowInstance) := []

/-- WorkflowFacade.resolveWorkflow: registry lookup for an id string,
identity for an instance. -/
def WorkflowFacade.resolveWorkflow (f : WorkflowFacade) :
    WorkflowIdOrInstance → Option MWorkflowInstance
  | .id s => lookupReg f.workflows s
  | .inst w => some w

/-- WorkflowFacade.getWorkflowErrorId: the id for strings, the
constant unknown otherwise. -/
def WorkflowFacade.getWorkflowErrorId : WorkflowIdOrInstance → String
  | .id s => s
  | .inst _ => "unknown"

/-- WorkflowFacade.execute: resolve, throw a typed
WorkflowExecutionError when resolution fails, otherwise forward to the
provider. -/
def WorkflowFacade.execute (f : WorkflowFacade) (target : WorkflowIdOrInstance)
    (input : Value) (ctx : IStepContext) : Outcome IWorkflowExecutionResult :=
  match f.resolveWorkflow target with
  | none =>
    .thrown (.err (workflowExecutionError
      ("Workflow not found: " ++ WorkflowFacade.getWorkflowErrorId target)
      (WorkflowFacade.getWorkflowErrorId target)))
  | some w => f.provider.execute w input ctx

/-- RunnerAdapter from runner-adapter.ts: its facade and its own
registry of (frozen) workflow instances. -/
structure RunnerAdapter where
  facade : WorkflowFacade
  workflows : List (String × MWorkflowInstance) := []

/-- RunnerAdapter.runWorkflow: look up by id; throw a typed
WorkflowExecutionError when absent, otherwise execute through the
facade with the execution context built from the caller context (the
logger part of that context is omitted, see the file comment). -/
def RunnerAdapter.runWorkflow (ra : RunnerAdapter) (id : String) (input : Value)
    (context : List (String × Value)) : Outcome IWorkflowExecutionResult :=
  match lookupReg ra.workflows id with
  | none => .thrown (.err (workflowExecutionError (runnerNotFoundMessage id) id))
  | some w => ra.facade.execute (.inst w) input ⟨context⟩

/-- RunnerAdapter.updateInputFromResult:
result.success && result.data ? result.data : currentInput.  Note the
truthiness test on data. -/
def RunnerAdapter.updateInputFromResult (result : IWorkflowExecutionResult)
    (currentInput : Value) : Value :=
  if result.success && truthy result.data then result.data else currentInput

/-- One entry of the config array of
RunnerAdapter.runWorkflowsSequential. -/
structure ARunConfig where
  id : String
  input : Value := .undef
  context : List (String × Value) := []

/-- The loop of RunnerAdapter.runWorkflowsSequential: run each entry
with config.input ?? currentInput, collect the result, update
currentInput via updateInputFromResult. -/
def RunnerAdapter.seqAux (ra : RunnerAdapter) :
    List ARunConfig → Value → Outcome (List IWorkflowExecutionResult)
  | [], _ => .ok []
  | cfg :: rest, currentInput =>
    match ra.runWorkflow cfg.id (coalesce cfg.input currentInput) cfg.context with
    | .thrown v => .thrown v
    | .ok result =>
      match ra.seqAux rest (RunnerAdapter.updateInputFromResult result currentInput) with
      | .thrown v => .thrown v
      | .ok results => .ok (result :: results)

/-- RunnerAdapter.runWorkflowsSequential: currentInput starts
undefined. -/
def RunnerAdapter.runWorkflowsSequential (ra : RunnerAdapter)
    (cfgs : List ARunConfig) : Outcome (List IWorkflowExecutionResult) :=
  ra.seqAux cfgs (Value.undef)

/-- One recorded entry of the instrumented adapter sequential loop. -/
structure ASeqStep where
  fallback : Value
  passed : Value
  result : IWorkflowExecutionResult
  deriving DecidableEq, Repr

/-- Instrumented variant of the adapter sequential loop recording, for
every entry, the fallback and the input actually passed. -/
def RunnerAdapter.seqTraceAux (ra : RunnerAdapter) :
    List ARunConfig → Value → Outcome (List ASeqStep)
  | [], _ => .ok []
  | cfg :: rest, currentInput =>
    match ra.runWorkflow cfg.id (coalesce cfg.input currentInput) cfg.context with
    | .thrown v => .thrown v
    | .ok result =>
      match ra.seqTraceAux rest (RunnerAdapter.updateInputFromResult result currentInput) with
      | .thrown v => .thrown v
      | .ok tl =>
        .ok ({ fallback := currentInput
               passed := coalesce cfg.input currentInput
               result := result } :: tl)

/-- Empty execution context used by the concrete evaluation theorems. -/
def ctx0 : IStepContext := ⟨[]⟩

/-- Concrete step: succeeds and echoes its input as data. -/
def echoStep : BaseStep :=
  { name := "echo", run := fun input _ => .ok { success := true, data := input } }

/-- Concrete step: returns a failure result carrying the Failed error,
like the FailingStep of the test suite. -/
def failStep : BaseStep :=
  { name := "fail"
    run := fun _ _ =>
      .ok { success := false, error := some { name := "Error", message := "Failed" } } }

/-- Concrete step: throws the plain string boom (a non-Error value). -/
def boomStep : BaseStep :=
  { name := "boom", run := fun _ _ => .thrown (.str "boom") }

/-- Concrete step: succeeds with data 2. -/
def twoStep : BaseStep :=
  { name := "two", run := fun _ _ => .ok { success := true, data := .num 2 } }

/-- Concrete step whose run reports success with the defined but falsy
data value empty-string, with a configured output schema that rejects
that value. -/
def cex5Step : BaseStep :=
  { name := "cex5"
    outputSchema := some numberSchema
    run := fun _ _ => .ok { success := true, data := .str "" } }

/-- Concrete step whose run reports failure with the truthy data
value x, with a configured output schema that rejects that value. -/
def wit5Step : BaseStep :=
  { name := "wit5"
    outputSchema := some numberSchema
    run := fun _ _ => .ok { success := false, data := .str "x" } }

/-- Following the claim wording for output validation: a schema is
configured and the result represents a success carrying defined
output data. -/
def claimedOutputValidationCondition (s : BaseStep) (r : StepResult) : Bool :=
  s.outputSchema.isSome && r.success && decide (r.data ≠ Value.undef)

/-- Concrete workflow for the halt-on-error evaluations: echo, then
fail, then echo, with continueOnError left false. -/
def haltWorkflow : Workflow :=
  { name := "halt"
    steps := [⟨echoStep, "s1"⟩, ⟨failStep, "s2"⟩, ⟨echoStep, "s3"⟩] }

/-- Concrete workflow for the continue-on-error evaluations: fail then
echo with continueOnError true. -/
def contWorkflow : Workflow :=
  { name := "cont"
    steps := [⟨failStep, "f"⟩, ⟨echoStep, "e"⟩]
    continueOnError := true }

/-- Concrete runner for the sequential-chaining evaluations: workflow
A produces data 2, workflow B echoes its input. -/
def seqRunner : Runner :=
  { workflows :=
      [("A", { name := "A", steps := [⟨twoStep, "two"⟩] }),
       ("B", { name := "B", steps := [⟨echoStep, "echo"⟩] })] }

/-- Workflow instance whose override returns the falsy output 0. -/
def zeroInst : MWorkflowInstance :=
  { id := "A0", execute := some (fun _ _ => .ok (.num 0)) }

/-- Workflow instance whose override echoes its input. -/
def echoInst : MWorkflowInstance :=
  { id := "B0", execute := some (fun input _ => .ok input) }

/-- Workflow instance whose override throws the plain string kaboom. -/
def boomInst : MWorkflowInstance :=
  { id := "boom", execute := some (fun _ _ => .thrown (.str "kaboom")) }

/-- A facade over the default provider with an empty registry. -/
def facade0 : WorkflowFacade := { provider := mastraProvider }

/-- Concrete adapter for the sequential-chaining evaluations. -/
def seqAdapter : RunnerAdapter :=
  { facade := facade0, workflows := [("A0", zeroInst), ("B0", echoInst)] }

/-- Following the claim wording for sequential chaining: the next
fallback is the data carried by the previous result when that run
succeeded, otherwise the previous fallback. -/
def claimedNextFallback (result : IWorkflowExecutionResult) (fallback : Value) : Value :=
  if result.success then result.data else fallback

/-- Concrete config list for the Runner sequential evaluations: entry
A with its own input 1, entry B with no input. -/
def rcfgs8 : List RunConfig :=
  [{ name := "A", input := Value.num 5 }, { name := "B" }]

/-- The trace seqRunner produces on rcfgs8: A receives its own input
and outputs data 2; B, having no input of its own, receives 2. -/
def rtrace8 : List RSeqStep :=
  [{ fallback := Value.undef, passed := Value.num 5,
     result := { success := true,
                 results := [{ success := true, data := Value.num 2 }] } },
   { fallback := Value.num 2, passed := Value.num 2,
     result := { success := true,
                 results := [{ success := true, data := Value.num 2 }] } }]

/-- Concrete config list for the adapter sequential evaluations: entry
A0 with its own input 5, entry B0 with no input. -/
def acfgs8 : List ARunConfig :=
  [{ id := "A0", input := Value.num 5 }, { id := "B0" }]

/-- The trace seqAdapter produces on acfgs8: A0 succeeds with the
falsy data 0, so the fallback stays undefined and B0 receives
undefined. -/
def atrace8 : List ASeqStep :=
  [{ fallback := Value.undef, passed := Value.num 5,
     result := { success := true, data := Value.num 0 } },
   { fallback := Value.undef, passed := Value.undef,
     result := { success := true, data := Value.undef } }]

/-- A list of step results is all-successful exactly when every member
is. -/
lemma all_success_iff (l : List StepResult) :
    l.all (fun r => r.success) = true ↔ ∀ r ∈ l, r.success = true := by
  simp [List.all_eq_true]

/-- find? for a failure misses when every result succeeded. -/
lemma find?_fail_eq_none {l : List StepResult}
    (h : ∀ r ∈ l, r.success = true) :
    l.find? (fun r => !r.success) = none := by
  induction l with
  | nil => rfl
  | cons a t ih =>
    have ha : a.success = true := h a (List.mem_cons_self a t)
    rw [List.find?_cons_of_neg _ (by simp [ha])]
    exact ih (fun r hr => h r (List.mem_cons_of_mem a hr))

/-- find? for a failure returns the entry at the first failing index. -/
lemma find?_fail_first :
    ∀ (l : List StepResult) (i : Nat) (hi : i < l.length),
      (l.get ⟨i, hi⟩).success = false →
      (∀ j (hj : j < i), (l.get ⟨j, Nat.lt_trans hj hi⟩).success = true) →
      l.find? (fun r => !r.success) = some (l.get ⟨i, hi⟩) := by
  intro l
  induction l with
  | nil => intro i hi; exact absurd hi (Nat.not_lt_zero i)
  | cons a t ih =>
    intro i hi hfail hbefore
    cases i with
    | zero =>
      have ha : a.success = false := hfail
      rw [List.find?_cons_of_pos _ (by simp [ha])]
      rfl
    | succ i =>
      have ha : a.success = true := hbefore 0 (Nat.succ_pos i)
      rw [List.find?_cons_of_neg _ (by simp [ha])]
      exact ih i (Nat.lt_of_succ_lt_succ hi) hfail
        (fun j hj => hbefore (j + 1) (Nat.succ_lt_succ hj))


/-- Equation for the step loop when the first step halts execution. -/
lemma executeStepsAux_cons_stop (w : Workflow) (sd : StepDefinition)
    (rest : List StepDefinition) (input : Value) (ctx : IStepContext)
    (h : w.shouldStopExecution (sd.step.execute input ctx) = true) :
    w.executeStepsAux (sd :: rest) input ctx = [sd.step.execute input ctx] := by
  simp [Workflow.executeStepsAux, h]

/-- Equation for the step loop when the first step lets execution
continue. -/
lemma executeStepsAux_cons_go (w : Workflow) (sd : StepDefinition)
    (rest : List StepDefinition) (input : Value) (ctx : IStepContext)
    (h : w.shouldStopExecution (sd.step.execute input ctx) = false) :
    w.executeStepsAux (sd :: rest) input ctx
      = sd.step.execute input ctx
          :: w.executeStepsAux rest (sd.step.execute input ctx).data ctx := by
  simp [Workflow.executeStepsAux, h]

/-- Equation for the instrumented loop when the first step halts
execution. -/
lemma traceStepsAux_cons_stop (w : Workflow) (sd : StepDefinition)
    (rest : List StepDefinition) (input : Value) (ctx : IStepContext)
    (h : w.shouldStopExecution (sd.step.execute input ctx) = true) :
    w.traceStepsAux (sd :: rest) input ctx
      = [(input, sd.step.execute input ctx)] := by
  simp [Workflow.traceStepsAux, h]

/-- Equation for the instrumented loop when the first step lets
execution continue. -/
lemma traceStepsAux_cons_go (w : Workflow) (sd : StepDefinition)
    (rest : List StepDefinition) (input : Value) (ctx : IStepContext)
    (h : w.shouldStopExecution (sd.step.execute input ctx) = false) :
    w.traceStepsAux (sd :: rest) input ctx
      = (input, sd.step.execute input ctx)
          :: w.traceStepsAux rest (sd.step.execute input ctx).data ctx := by
  simp [Workflow.traceStepsAux, h]

/-- Under continueOnError = false, a failing entry in the collected
results of the step loop is always the last entry. -/
lemma executeStepsAux_halt (w : Workflow) (hco : w.continueOnError = false) :
    ∀ (steps : List StepDefinition) (input : Value) (ctx : IStepContext)
      (i : Nat) (hi : i < (w.executeStepsAux steps input ctx).length),
      ((w.executeStepsAux steps input ctx).get ⟨i, hi⟩).success = false →
      (w.executeStepsAux steps input ctx).length = i + 1 := by
  intro steps
  induction steps with
  | nil =>
    intro input ctx i hi
    simp [Workflow.executeStepsAux] at hi
  | cons sd rest ih =>
    intro input ctx i hi hfail
    cases hstop : w.shouldStopExecution (sd.step.execute input ctx) with
    | true =>
      rw [executeStepsAux_cons_stop w sd rest input ctx hstop] at hi ⊢
      simp at hi
      simp [hi]
    | false =>
      have hsucc : (sd.step.execute input ctx).success = true := by
        have h := hstop
        simp [Workflow.shouldStopExecution, hco] at h
        exact h
      revert hi
      rw [executeStepsAux_cons_go w sd rest input ctx hstop]
      intro hi hfail
      cases i with
      | zero =>
        have hfail0 : (sd.step.execute input ctx).success = false := hfail
        rw [hfail0] at hsucc
        exact absurd hsucc (by simp)
      | succ i =>
        have hrest : i < (w.executeStepsAux rest (sd.step.execute input ctx).data ctx).length :=
          Nat.lt_of_succ_lt_succ (by simpa using hi)
        have hfail1 :
            ((w.executeStepsAux rest (sd.step.execute input ctx).data ctx).get
              ⟨i, hrest⟩).success = false := hfail
        have hlen := ih (sd.step.execute input ctx).data ctx i hrest hfail1
        simp [hlen]

/-- The step loop never collects more results than there are
configured steps. -/
lemma executeStepsAux_length_le (w : Workflow) :
    ∀ (steps : List StepDefinition) (input : Value) (ctx : IStepContext),
      (w.executeStepsAux steps input ctx).length ≤ steps.length := by
  intro steps
  induction steps with
  | nil => intro input ctx; simp [Workflow.executeStepsAux]
  | cons sd rest ih =>
    intro input ctx
    cases hstop : w.shouldStopExecution (sd.step.execute input ctx) with
    | true =>
      rw [executeStepsAux_cons_stop w sd rest input ctx hstop]
      simp
    | false =>
      rw [executeStepsAux_cons_go w sd rest input ctx hstop]
      exact Nat.succ_le_succ (ih _ _)

/-- The instrumented loop projects onto the real loop: dropping the
recorded inputs gives exactly the collected results. -/
lemma traceStepsAux_map_snd (w : Workflow) :
    ∀ (steps : List StepDefinition) (input : Value) (ctx : IStepContext),
      (w.traceStepsAux steps input ctx).map Prod.snd
        = w.executeStepsAux steps input ctx := by
  intro steps
  induction steps with
  | nil => intro input ctx; rfl
  | cons sd rest ih =>
    intro input ctx
    cases hstop : w.shouldStopExecution (sd.step.execute input ctx) with
    | true =>
      rw [traceStepsAux_cons_stop w sd rest input ctx hstop,
        executeStepsAux_cons_stop w sd rest input ctx hstop]
      rfl
    | false =>
      rw [traceStepsAux_cons_go w sd rest input ctx hstop,
        executeStepsAux_cons_go w sd rest input ctx hstop, List.map_cons, ih]

/-- The first entry of the instrumented loop records the initial
input. -/
lemma traceStepsAux_head_fst (w : Workflow) :
    ∀ (steps : List StepDefinition) (input : Value) (ctx : IStepContext)
      (h : 0 < (w.traceStepsAux steps input ctx).length),
      ((w.traceStepsAux steps input ctx).get ⟨0, h⟩).fst = input := by
  intro steps
  cases steps with
  | nil => intro input ctx h; simp [Workflow.traceStepsAux] at h
  | cons sd rest =>
    intro input ctx h
    cases hstop : w.shouldStopExecution (sd.step.execute input ctx) with
    | true => simp [traceStepsAux_cons_stop w sd rest input ctx hstop]
    | false => simp [traceStepsAux_cons_go w sd rest input ctx hstop]

/-- Each later entry of the instrumented loop records, as its input,
exactly the data of the previous entry's result. -/
lemma traceStepsAux_chain (w : Workflow) :
    ∀ (steps : List StepDefinition) (input : Value) (ctx : IStepContext)
      (i : Nat) (h1 : i + 1 < (w.traceStepsAux steps input ctx).length),
      ((w.traceStepsAux steps input ctx).get ⟨i + 1, h1⟩).fst
        = (((w.traceStepsAux steps input ctx).get
            ⟨i, Nat.lt_of_succ_lt h1⟩).snd).data := by
  intro steps
  induction steps with
  | nil =>
    intro input ctx i h1
    simp [Workflow.traceStepsAux] at h1
  | cons sd rest ih =>
    intro input ctx i h1
    cases hstop : w.shouldStopExecution (sd.step.execute input ctx) with
    | true =>
      rw [traceStepsAux_cons_stop w sd rest input ctx hstop] at h1
      simp at h1
    | false =>
      revert h1
      rw [traceStepsAux_cons_go w sd rest input ctx hstop]
      intro h1
      cases i with
      | zero =>
        rw [List.get_cons_succ]
        exact traceStepsAux_head_fst w rest _ ctx
          (Nat.lt_of_succ_lt_succ (by simpa using h1))
      | succ i =>
        rw [List.get_cons_succ]
        exact ih _ ctx i (Nat.lt_of_succ_lt_succ (by simpa using h1))

/-- Characterization of Runner.extractNextInput: the data of the last
collected step result when the run succeeded and carried at least one
result, otherwise the fallback. -/
lemma extractNextInput_spec (result : WorkflowResult) (fallback : Value) :
    Runner.extractNextInput result fallback
      = match result.results.getLast? with
        | some lastResult => if result.success then lastResult.data else fallback
        | none => fallback := by
  unfold Runner.extractNextInput Runner.hasValidResults
  cases hres : result.results with
  | nil => cases hsucc : result.success <;> simp
  | cons a t =>
    cases hsucc : result.success <;> cases hl : (a :: t).getLast? <;> simp [hl]

/-- Soundness and shape of the instrumented Runner sequential loop:
it projects onto the real loop, records one entry per config, starts
from the given fallback, passes config.input ?? fallback to each
entry, and chains fallbacks through extractNextInput. -/
lemma runner_seqTrace_spec (rn : Runner) :
    ∀ (cfgs : List RunConfig) (cur : Value) (tr : List RSeqStep),
      rn.seqTraceAux cfgs cur = .ok tr →
      rn.seqAux cfgs cur = .ok (tr.map RSeqStep.result)
      ∧ tr.length = cfgs.length
      ∧ (∀ h0 : 0 < tr.length, (tr.get ⟨0, h0⟩).fallback = cur)
      ∧ (∀ (i : Nat) (hi : i < tr.length) (hc : i < cfgs.length),
           (tr.get ⟨i, hi⟩).passed
             = coalesce (cfgs.get ⟨i, hc⟩).input (tr.get ⟨i, hi⟩).fallback)
      ∧ (∀ (i : Nat) (h1 : i + 1 < tr.length),
           (tr.get ⟨i + 1, h1⟩).fallback
             = Runner.extractNextInput (tr.get ⟨i, Nat.lt_of_succ_lt h1⟩).result
                 (tr.get ⟨i, Nat.lt_of_succ_lt h1⟩).fallback) := by
  intro cfgs
  induction cfgs with
  | nil =>
    intro cur tr h
    simp only [Runner.seqTraceAux] at h
    have htr : tr = [] := by
      cases h
      rfl
    subst htr
    refine ⟨rfl, rfl, ?_, ?_, ?_⟩
    · intro h0; simp at h0
    · intro i hi; simp at hi
    · intro i h1; simp at h1
  | cons cfg rest ih =>
    intro cur tr h
    simp only [Runner.seqTraceAux] at h
    cases hrun : rn.runWorkflow cfg.name (coalesce cfg.input cur) cfg.metadata with
    | thrown v =>
      rw [hrun] at h
      have h2 : (Outcome.thrown v : Outcome (List RSeqStep)) = Outcome.ok tr := h
      cases h2
    | ok result =>
      rw [hrun] at h
      have h2 :
          (match rn.seqTraceAux rest (Runner.extractNextInput result cur) with
            | Outcome.thrown v => (Outcome.thrown v : Outcome (List RSeqStep))
            | Outcome.ok tl =>
              Outcome.ok (RSeqStep.mk cur (coalesce cfg.input cur) result :: tl))
          = Outcome.ok tr := h
      cases htl : rn.seqTraceAux rest (Runner.extractNextInput result cur) with
      | thrown v =>
        rw [htl] at h2
        cases h2
      | ok tl =>
        rw [htl] at h2
        have htr : tr
            = { fallback := cur, passed := coalesce cfg.input cur, result := result } :: tl := by
          cases h2
          rfl
        subst htr
        obtain ⟨ha, hb, hhead, hpass, hchain⟩ := ih (Runner.extractNextInput result cur) tl htl
        refine ⟨?_, ?_, ?_, ?_, ?_⟩
        · simp only [Runner.seqAux]
          rw [hrun]
          show (match rn.seqAux rest (Runner.extractNextInput result cur) with
              | Outcome.thrown v => (Outcome.thrown v : Outcome (List WorkflowResult))
              | Outcome.ok results => Outcome.ok (result :: results))
            = Outcome.ok (List.map RSeqStep.result
                (RSeqStep.mk cur (coalesce cfg.input cur) result :: tl))
          rw [ha]
          rfl
        · simp [hb]
        · intro h0; rfl
        · intro i hi hc
          cases i with
          | zero => rfl
          | succ i =>
            simp only [List.get_cons_succ]
            exact hpass i (Nat.lt_of_succ_lt_succ (by simpa using hi))
              (Nat.lt_of_succ_lt_succ (by simpa using hc))
        · intro i h1
          cases i with
          | zero =>
            simp only [List.get_cons_succ]
            exact hhead (Nat.lt_of_succ_lt_succ (by simpa using h1))
          | succ i =>
            simp only [List.get_cons_succ]
            exact hchain i (Nat.lt_of_succ_lt_succ (by simpa using h1))

/-- Soundness and shape of the instrumented RunnerAdapter sequential
loop, in exact analogy with the Runner one but chaining fallbacks
through updateInputFromResult. -/
lemma adapter_seqTrace_spec (ra : RunnerAdapter) :
    ∀ (cfgs : List ARunConfig) (cur : Value) (tr : List ASeqStep),
      ra.seqTraceAux cfgs cur = .ok tr →
      ra.seqAux cfgs cur = .ok (tr.map ASeqStep.result)
      ∧ tr.length = cfgs.length
      ∧ (∀ h0 : 0 < tr.length, (tr.get ⟨0, h0⟩).fallback = cur)
      ∧ (∀ (i : Nat) (hi : i < tr.length) (hc : i < cfgs.length),
           (tr.get ⟨i, hi⟩).passed
             = coalesce (cfgs.get ⟨i, hc⟩).input (tr.get ⟨i, hi⟩).fallback)
      ∧ (∀ (i : Nat) (h1 : i + 1 < tr.length),
           (tr.get ⟨i + 1, h1⟩).fallback
             = RunnerAdapter.updateInputFromResult
                 (tr.get ⟨i, Nat.lt_of_succ_lt h1⟩).result
                 (tr.get ⟨i, Nat.lt_of_succ_lt h1⟩).fallback) := by
  intro cfgs
  induction cfgs with
  | nil =>
    intro cur tr h
    simp only [RunnerAdapter.seqTraceAux] at h
    have htr : tr = [] := by
      cases h
      rfl
    subst htr
    refine ⟨rfl, rfl, ?_, ?_, ?_⟩
    · intro h0; simp at h0
    · intro i hi; simp at hi
    · intro i h1; simp at h1
  | cons cfg rest ih =>
    intro cur tr h
    simp only [RunnerAdapter.seqTraceAux] at h
    cases hrun : ra.runWorkflow cfg.id (coalesce cfg.input cur) cfg.context with
    | thrown v =>
      rw [hrun] at h
      have h2 : (Outcome.thrown v : Outcome (List ASeqStep)) = Outcome.ok tr := h
      cases h2
    | ok result =>
      rw [hrun] at h
      have h2 :
          (match ra.seqTraceAux rest (RunnerAdapter.updateInputFromResult result cur) with
            | Outcome.thrown v => (Outcome.thrown v : Outcome (List ASeqStep))
            | Outcome.ok tl =>
              Outcome.ok (ASeqStep.mk cur (coalesce cfg.input cur) result :: tl))
          = Outcome.ok tr := h
      cases htl : ra.seqTraceAux rest (RunnerAdapter.updateInputFromResult result cur) with
      | thrown v =>
        rw [htl] at h2
        cases h2
      | ok tl =>
        rw [htl] at h2
        have htr : tr
            = { fallback := cur, passed := coalesce cfg.input cur, result := result } :: tl := by
          cases h2
          rfl
        subst htr
        obtain ⟨ha, hb, hhead, hpass, hchain⟩ :=
          ih (RunnerAdapter.updateInputFromResult result cur) tl htl
        refine ⟨?_, ?_, ?_, ?_, ?_⟩
        · simp only [RunnerAdapter.seqAux]
          rw [hrun]
          show (match ra.seqAux rest (RunnerAdapter.updateInputFromResult result cur) with
              | Outcome.thrown v => (Outcome.thrown v : Outcome (List IWorkflowExecutionResult))
              | Outcome.ok results => Outcome.ok (result :: results))
            = Outcome.ok (List.map ASeqStep.result
                (ASeqStep.mk cur (coalesce cfg.input cur) result :: tl))
          rw [ha]
          rfl
        · simp [hb]
        · intro h0; rfl
        · intro i hi hc
          cases i with
          | zero => rfl
          | succ i =>
            simp only [List.get_cons_succ]
            exact hpass i (Nat.lt_of_succ_lt_succ (by simpa using hi))
              (Nat.lt_of_succ_lt_succ (by simpa using hc))
        · intro i h1
          cases i with
          | zero =>
            simp only [List.get_cons_succ]
            exact hhead (Nat.lt_of_succ_lt_succ (by simpa using h1))
          | succ i =>
            simp only [List.get_cons_succ]
            exact hchain i (Nat.lt_of_succ_lt_succ (by simpa using h1))

/-- Claim C1: BaseStep.execute never throws.  The function is total by
construction (the try/catch of the source), and whenever the try body
throws any value v, whether from input validation, the wrapped run
function or output validation, execute returns a StepResult with
success = false whose error field holds v coerced to an Error: the
value itself when it already is an Error, and a fresh Error carrying
String(v) otherwise. -/
theorem c1_step_execute_never_throws (s : BaseStep) (input : Value)
    (ctx : IStepContext) (v : Value)
    (h : s.tryBody input ctx = .thrown v) :
    s.execute input ctx
      = { success := false, data := .undef, error := some (toError v), metadata := [] }
    ∧ (∀ e, v = Value.err e → toError v = e)
    ∧ (isErrV v = false →
        (toError v).name = "Error" ∧ (toError v).message = jsString v) := by
  refine ⟨?_, ?_, ?_⟩
  · unfold BaseStep.execute
    rw [h]
    rfl
  · intro e he
    subst he
    rfl
  · intro hne
    cases v with
    | err e => simp [isErrV] at hne
    | undef => exact ⟨rfl, rfl⟩
    | null => exact ⟨rfl, rfl⟩
    | bool b => exact ⟨rfl, rfl⟩
    | num n => exact ⟨rfl, rfl⟩
    | str s => exact ⟨rfl, rfl⟩
    | obj t => exact ⟨rfl, rfl⟩

/-- Witness for C1: a step whose run throws the non-Error string boom
yields a failure result carrying new Error with message boom. -/
theorem c1_witness :
    boomStep.execute (Value.num 1) ctx0
      = { success := false, data := Value.undef,
          error := some { name := "Error", message := "boom", workflowId := none },
          metadata := [] } :=
  (c1_step_execute_never_throws boomStep (Value.num 1) ctx0 (Value.str "boom") rfl).1

/-- Claim C2: under continueOnError = false, a failing entry in the
returned results is always the last entry, so execution halted right
after it and the results list may be shorter than the configured step
list (never longer). -/
theorem c2_halt_on_error (w : Workflow) (input : Value)
    (md : List (String × Value)) (hco : w.continueOnError = false)
    (i : Nat) (hi : i < (w.execute input md).results.length)
    (hfail : ((w.execute input md).results.get ⟨i, hi⟩).success = false) :
    (w.execute input md).results.length = i + 1
    ∧ (w.execute input md).results.length ≤ w.steps.length :=
  ⟨executeStepsAux_halt w hco w.steps input ⟨md⟩ i hi hfail,
    executeStepsAux_length_le w w.steps input ⟨md⟩⟩

/-- Witness for C2: echo then fail then echo with halt-on-error: the
failing entry at position 1 is last, results has 2 of 3 entries. -/
theorem c2_witness :
    ((haltWorkflow.execute (Value.num 10) []).results.get ⟨1, by decide⟩).success = false
    ∧ (haltWorkflow.execute (Value.num 10) []).results.length = 1 + 1
    ∧ (haltWorkflow.execute (Value.num 10) []).results.length
        < haltWorkflow.steps.length := by
  have h := c2_halt_on_error haltWorkflow (Value.num 10) [] rfl 1 (by decide) (by decide)
  exact ⟨by decide, h.1, by decide⟩

/-- Claim C3: WorkflowResult.success is true exactly when every entry
of the results array has success = true, for any continueOnError
setting and any execution. -/
theorem c3_success_iff_all (w : Workflow) (input : Value)
    (md : List (String × Value)) :
    (w.execute input md).success = true ↔
      ∀ r ∈ (w.execute input md).results, r.success = true :=
  all_success_iff (w.executeSteps input ⟨md⟩)

/-- Witness for C3 at a concrete halted execution. -/
theorem c3_witness :
    (haltWorkflow.execute (Value.num 10) []).success = true ↔
      ∀ r ∈ (haltWorkflow.execute (Value.num 10) []).results, r.success = true :=
  c3_success_iff_all haltWorkflow (Value.num 10) []

/-- Claim C4: the collected results are exactly the results of the
instrumented trace, the first executed step receives the initial
input, and every later executed step receives, verbatim, the data
field of the previous step result, whatever it is (undefined
included). -/
theorem c4_literal_piping (w : Workflow) (input : Value)
    (md : List (String × Value)) :
    (w.execute input md).results = (w.traceSteps input md).map Prod.snd
    ∧ (∀ h0 : 0 < (w.traceSteps input md).length,
        ((w.traceSteps input md).get ⟨0, h0⟩).fst = input)
    ∧ (∀ (i : Nat) (h1 : i + 1 < (w.traceSteps input md).length),
        ((w.traceSteps input md).get ⟨i + 1, h1⟩).fst
          = (((w.traceSteps input md).get ⟨i, Nat.lt_of_succ_lt h1⟩).snd).data) := by
  refine ⟨?_, ?_, ?_⟩
  · exact (traceStepsAux_map_snd w w.steps input ⟨md⟩).symm
  · intro h0
    exact traceStepsAux_head_fst w w.steps input ⟨md⟩ h0
  · intro i h1
    exact traceStepsAux_chain w w.steps input ⟨md⟩ i h1

/-- Witness for C4: under continueOnError = true, after the failing
first step (whose result carries no data) the second step receives
undefined. -/
theorem c4_witness :
    ((contWorkflow.traceSteps (Value.num 1) []).get ⟨0 + 1, by decide⟩).fst
        = (((contWorkflow.traceSteps (Value.num 1) []).get ⟨0, by decide⟩).snd).data
    ∧ ((contWorkflow.traceSteps (Value.num 1) []).get ⟨0 + 1, by decide⟩).fst
        = Value.undef := by
  refine ⟨?_, by decide⟩
  exact (c4_literal_piping contWorkflow (Value.num 1) []).2.2 0 (by decide)

/-- Claim C5, amended: after a successful input validation and a run
that returned result, the configured output schema is applied exactly
when result.data is truthy under JavaScript truthiness; the success
flag is not consulted, and defined-but-falsy data (0, empty string,
false, null) skips validation.  When applied and the schema rejects,
execute returns the failure result carrying the schema error. -/
theorem c5_output_validation_amended (s : BaseStep) (input : Value)
    (ctx : IStepContext) (result : StepResult)
    (hv : s.validateInput input = none)
    (hr : s.run input ctx = .ok result) :
    s.execute input ctx
      = (match s.outputSchema with
         | none => result
         | some sch =>
           if truthy result.data then
             match sch.parse result.data with
             | none => result
             | some e => StepResult.mk false Value.undef (some e) []
           else result) := by
  have hbody : s.tryBody input ctx
      = (match s.validateOutput result.data with
          | some e => Outcome.thrown (Value.err e)
          | none => Outcome.ok result) := by
    unfold BaseStep.tryBody
    rw [hv, hr]
  unfold BaseStep.execute
  rw [hbody]
  unfold BaseStep.validateOutput
  cases hos : s.outputSchema with
  | none => rfl
  | some sch =>
    cases ht : truthy result.data with
    | false => simp [ht]
    | true =>
      cases hp : sch.parse result.data with
      | none => simp [ht, hp]
      | some e => simp [ht, hp, BaseStep.handleError, toError]

/-- Counterexample for C5 as stated: a configured output schema, a run
result that is a success carrying the defined data empty-string which
the schema rejects, yet execute returns that success result untouched,
because the source skips validation on falsy data. -/
theorem c5_counterexample :
    claimedOutputValidationCondition cex5Step
        { success := true, data := Value.str "", error := none, metadata := [] } = true
    ∧ cex5Step.run (Value.num 1) ctx0
        = Outcome.ok { success := true, data := Value.str "", error := none, metadata := [] }
    ∧ numberSchema.parse (Value.str "")
        = some { name := "ZodError", message := "Expected number, received string",
                 workflowId := none }
    ∧ cex5Step.execute (Value.num 1) ctx0
        = { success := true, data := Value.str "", error := none, metadata := [] } := by
  refine ⟨by decide, rfl, by decide, by decide⟩

/-- Witness for C5 amended: the success flag is not consulted, so a
failed run result with truthy data is still validated and the schema
rejection replaces it with a failure result carrying the ZodError. -/
theorem c5_witness :
    wit5Step.execute (Value.num 1) ctx0
      = StepResult.mk false Value.undef
          (some (ErrorV.mk "ZodError" "Expected number, received string" none)) [] := by
  have h := c5_output_validation_amended wit5Step (Value.num 1) ctx0
    { success := false, data := Value.str "x", error := none, metadata := [] } rfl rfl
  rw [h]
  decide

/-- Claim C6: whenever the step loop ran to completion (all steps
succeeded or continueOnError let failures through), the aggregate
success flag equals every-result-succeeded, the aggregate error is
absent when every entry succeeded, and otherwise equals the error of
the first failing entry. -/
theorem c6_aggregate (w : Workflow) (input : Value)
    (md : List (String × Value))
    (_hc : w.continueOnError = true ∨
      ∀ r ∈ (w.execute input md).results, r.success = true) :
    ((w.execute input md).success = true ↔
      ∀ r ∈ (w.execute input md).results, r.success = true)
    ∧ ((∀ r ∈ (w.execute input md).results, r.success = true) →
        (w.execute input md).error = none)
    ∧ (∀ (i : Nat) (hi : i < (w.execute input md).results.length),
        ((w.execute input md).results.get ⟨i, hi⟩).success = false →
        (∀ (j : Nat) (hj : j < i),
          ((w.execute input md).results.get ⟨j, Nat.lt_trans hj hi⟩).success = true) →
        (w.execute input md).error
          = ((w.execute input md).results.get ⟨i, hi⟩).error) := by
  refine ⟨all_success_iff _, ?_, ?_⟩
  · intro hall
    have hall2 : ∀ r ∈ w.executeSteps input ⟨md⟩, r.success = true := hall
    show ((w.executeSteps input ⟨md⟩).find? (fun r => !r.success)).bind
        (fun r => r.error) = none
    rw [find?_fail_eq_none hall2]
    rfl
  · intro i hi hfail hbefore
    show ((w.executeSteps input ⟨md⟩).find? (fun r => !r.success)).bind
        (fun r => r.error) = _
    rw [find?_fail_first (w.executeSteps input ⟨md⟩) i hi hfail hbefore]
    rfl

/-- Witness for C6: under continueOnError = true with a failing first
step and a succeeding second one, the aggregate error is the first
failing entry's Failed error. -/
theorem c6_witness :
    (contWorkflow.execute (Value.num 1) []).error
        = ((contWorkflow.execute (Value.num 1) []).results.get ⟨0, by decide⟩).error
    ∧ (contWorkflow.execute (Value.num 1) []).error
        = some { name := "Error", message := "Failed", workflowId := none } := by
  have h := (c6_aggregate contWorkflow (Value.num 1) [] (Or.inl rfl)).2.2 0 (by decide)
    (by decide) (fun j hj => absurd hj (Nat.not_lt_zero j))
  exact ⟨h, by decide⟩

/-- Claim C7: a lookup miss raises instead of being absorbed into a
result.  Runner.runWorkflow throws a plain Error whose message
contains the attempted name; RunnerAdapter.runWorkflow throws a typed
WorkflowExecutionError whose message contains the attempted id and
which carries it in workflowId; WorkflowFacade.execute given an
unregistered id string throws a typed WorkflowExecutionError carrying
that id.  In every case the throw happens instead of executing any
workflow: the error arm is returned without consulting any registered
instance. -/
theorem c7_not_found_raises :
    (∀ (rn : Runner) (nm : String) (input : Value) (md : List (String × Value)),
      lookupReg rn.workflows nm = none →
      rn.runWorkflow nm input md
          = Outcome.thrown (Value.err
              (ErrorV.mk "Error" (runnerNotFoundMessage nm) none))
        ∧ ∃ pre post, runnerNotFoundMessage nm = pre ++ nm ++ post)
    ∧ (∀ (ra : RunnerAdapter) (id : String) (input : Value)
        (c : List (String × Value)),
      lookupReg ra.workflows id = none →
      ra.runWorkflow id input c
          = Outcome.thrown (Value.err
              (workflowExecutionError (runnerNotFoundMessage id) id))
        ∧ (workflowExecutionError (runnerNotFoundMessage id) id).name
            = "WorkflowExecutionError"
        ∧ (workflowExecutionError (runnerNotFoundMessage id) id).workflowId = some id
        ∧ ∃ pre post, runnerNotFoundMessage id = pre ++ id ++ post)
    ∧ (∀ (f : WorkflowFacade) (id : String) (input : Value) (ctx : IStepContext),
      lookupReg f.workflows id = none →
      f.execute (.id id) input ctx
          = Outcome.thrown (Value.err
              (workflowExecutionError ("Workflow not found: " ++ id) id))
        ∧ (workflowExecutionError ("Workflow not found: " ++ id) id).name
            = "WorkflowExecutionError"
        ∧ (workflowExecutionError ("Workflow not found: " ++ id) id).workflowId
            = some id) := by
  refine ⟨?_, ?_, ?_⟩
  · intro rn nm input md h
    refine ⟨?_, "Workflow " ++ squote, squote ++ " not found", rfl⟩
    unfold Runner.runWorkflow
    rw [h]
  · intro ra id input c h
    refine ⟨?_, rfl, rfl, "Workflow " ++ squote, squote ++ " not found", rfl⟩
    unfold RunnerAdapter.runWorkflow
    rw [h]
  · intro f id input ctx h
    refine ⟨?_, rfl, rfl⟩
    show (match lookupReg f.workflows id with
        | none =>
          Outcome.thrown (Value.err
            (workflowExecutionError ("Workflow not found: " ++ id) id))
        | some w => f.provider.execute w input ctx)
      = Outcome.thrown (Value.err
          (workflowExecutionError ("Workflow not found: " ++ id) id))
    rw [h]

/-- Witness for C7: an empty Runner registry, an empty RunnerAdapter
registry and an empty facade registry all reject the id
NoSuchWorkflow with the corresponding thrown error. -/
theorem c7_witness :
    (Runner.mk []).runWorkflow "NoSuchWorkflow" Value.undef []
        = Outcome.thrown (Value.err
            (ErrorV.mk "Error" (runnerNotFoundMessage "NoSuchWorkflow") none))
    ∧ (RunnerAdapter.mk facade0 []).runWorkflow "NoSuchWorkflow" Value.undef []
        = Outcome.thrown (Value.err
            (workflowExecutionError (runnerNotFoundMessage "NoSuchWorkflow")
              "NoSuchWorkflow"))
    ∧ facade0.execute (.id "NoSuchWorkflow") Value.undef ctx0
        = Outcome.thrown (Value.err
            (workflowExecutionError ("Workflow not found: " ++ "NoSuchWorkflow")
              "NoSuchWorkflow")) :=
  ⟨(c7_not_found_raises.1 (Runner.mk []) "NoSuchWorkflow" Value.undef [] rfl).1,
   (c7_not_found_raises.2.1 (RunnerAdapter.mk facade0 []) "NoSuchWorkflow"
      Value.undef [] rfl).1,
   (c7_not_found_raises.2.2 facade0 "NoSuchWorkflow" Value.undef ctx0 rfl).1⟩

/-- Claim C8, amended: in runWorkflowsSequential each entry receives
its own input when it is non-nullish, and otherwise the running
fallback, which starts undefined and is updated after each entry as
follows.  For Runner: to the last step result's data when the run
succeeded with a non-empty results array (even when that data is
falsy), otherwise kept unchanged.  For RunnerAdapter: to the result's
data when the run succeeded and that data is truthy, otherwise kept
unchanged; in particular a successful run carrying falsy data (0,
empty string, false) does not update the fallback. -/
theorem c8_sequential_chaining_amended :
    (∀ (rn : Runner) (cfgs : List RunConfig) (cur : Value) (tr : List RSeqStep),
      rn.seqTraceAux cfgs cur = .ok tr →
      rn.seqAux cfgs cur = .ok (tr.map RSeqStep.result)
      ∧ tr.length = cfgs.length
      ∧ (∀ h0 : 0 < tr.length, (tr.get ⟨0, h0⟩).fallback = cur)
      ∧ (∀ (i : Nat) (hi : i < tr.length) (hc : i < cfgs.length),
           (tr.get ⟨i, hi⟩).passed
             = coalesce (cfgs.get ⟨i, hc⟩).input (tr.get ⟨i, hi⟩).fallback)
      ∧ (∀ (i : Nat) (h1 : i + 1 < tr.length),
           (tr.get ⟨i + 1, h1⟩).fallback
             = Runner.extractNextInput (tr.get ⟨i, Nat.lt_of_succ_lt h1⟩).result
                 (tr.get ⟨i, Nat.lt_of_succ_lt h1⟩).fallback))
    ∧ (∀ (result : WorkflowResult) (fallback : Value),
        Runner.extractNextInput result fallback
          = match result.results.getLast? with
            | some lastResult => if result.success then lastResult.data else fallback
            | none => fallback)
    ∧ (∀ (ra : RunnerAdapter) (cfgs : List ARunConfig) (cur : Value)
        (tr : List ASeqStep),
      ra.seqTraceAux cfgs cur = .ok tr →
      ra.seqAux cfgs cur = .ok (tr.map ASeqStep.result)
      ∧ tr.length = cfgs.length
      ∧ (∀ h0 : 0 < tr.length, (tr.get ⟨0, h0⟩).fallback = cur)
      ∧ (∀ (i : Nat) (hi : i < tr.length) (hc : i < cfgs.length),
           (tr.get ⟨i, hi⟩).passed
             = coalesce (cfgs.get ⟨i, hc⟩).input (tr.get ⟨i, hi⟩).fallback)
      ∧ (∀ (i : Nat) (h1 : i + 1 < tr.length),
           (tr.get ⟨i + 1, h1⟩).fallback
             = RunnerAdapter.updateInputFromResult
                 (tr.get ⟨i, Nat.lt_of_succ_lt h1⟩).result
                 (tr.get ⟨i, Nat.lt_of_succ_lt h1⟩).fallback))
    ∧ (∀ (result : IWorkflowExecutionResult) (fallback : Value),
        RunnerAdapter.updateInputFromResult result fallback
          = if result.success && truthy result.data then result.data
            else fallback) :=
  ⟨runner_seqTrace_spec, extractNextInput_spec, adapter_seqTrace_spec,
    fun _ _ => rfl⟩

/-- Counterexample for C8 as stated: on the adapter path, entry A0
succeeds carrying the falsy data 0 and entry B0 has no input of its
own; the claim then says B0 receives the data carried by the previous
successful result (0), but the adapter keeps the fallback unchanged
and B0 receives undefined. -/
theorem c8_counterexample :
    seqAdapter.seqTraceAux acfgs8 Value.undef = Outcome.ok atrace8
    ∧ ((atrace8.get ⟨0, by decide⟩).result).success = true
    ∧ ((atrace8.get ⟨0, by decide⟩).result).data = Value.num 0
    ∧ nullish (acfgs8.get ⟨1, by decide⟩).input = true
    ∧ (atrace8.get ⟨1, by decide⟩).passed = Value.undef
    ∧ claimedNextFallback ((atrace8.get ⟨0, by decide⟩).result) Value.undef
        = Value.num 0
    ∧ (atrace8.get ⟨1, by decide⟩).passed
        ≠ claimedNextFallback ((atrace8.get ⟨0, by decide⟩).result) Value.undef := by
  refine ⟨by decide, by decide, by decide, by decide, by decide, by decide, by decide⟩

/-- Witness for C8 amended: the Runner instance chains A's output 2
into B; the adapter instance passes config.input ?? fallback exactly
as the amended rule states. -/
theorem c8_witness :
    seqRunner.seqTraceAux rcfgs8 Value.undef = Outcome.ok rtrace8
    ∧ (rtrace8.get ⟨1, by decide⟩).passed
        = coalesce (rcfgs8.get ⟨1, by decide⟩).input
            (rtrace8.get ⟨1, by decide⟩).fallback
    ∧ (rtrace8.get ⟨1, by decide⟩).passed = Value.num 2
    ∧ seqAdapter.seqTraceAux acfgs8 Value.undef = Outcome.ok atrace8
    ∧ (atrace8.get ⟨1, by decide⟩).passed
        = coalesce (acfgs8.get ⟨1, by decide⟩).input
            (atrace8.get ⟨1, by decide⟩).fallback := by
  have hr := (c8_sequential_chaining_amended.1 seqRunner rcfgs8 Value.undef rtrace8
    (by decide)).2.2.2.1 1 (by decide) (by decide)
  have ha := (c8_sequential_chaining_amended.2.2.1 seqAdapter acfgs8 Value.undef atrace8
    (by decide)).2.2.2.1 1 (by decide) (by decide)
  exact ⟨by decide, hr, by decide, by decide, ha⟩

/-- Claim C9: when the configured input schema rejects the input,
execute returns a failure result carrying exactly the validation
error, and the wrapped run function is never called: the result is the
same for any two run functions.  For the zod number-schema model, the
input string invalid is rejected with a message naming the expected
type number. -/
theorem c9_input_validation (nm : String) (sch : Schema) (os : Option Schema)
    (run1 run2 : Value → IStepContext → Outcome StepResult)
    (input : Value) (ctx : IStepContext) (e : ErrorV)
    (h : sch.parse input = some e) :
    (BaseStep.mk nm (some sch) os run1).execute input ctx
        = StepResult.mk false Value.undef (some e) []
    ∧ (BaseStep.mk nm (some sch) os run1).execute input ctx
        = (BaseStep.mk nm (some sch) os run2).execute input ctx
    ∧ numberSchema.parse (Value.str "invalid")
        = some (ErrorV.mk "ZodError" "Expected number, received string" none)
    ∧ (∃ pre post, "Expected number, received string" = pre ++ "number" ++ post) := by
  have hexec : ∀ (run : Value → IStepContext → Outcome StepResult),
      (BaseStep.mk nm (some sch) os run).execute input ctx
        = StepResult.mk false Value.undef (some e) [] := by
    intro run
    have hv : (BaseStep.mk nm (some sch) os run).validateInput input = some e := h
    have hbody : (BaseStep.mk nm (some sch) os run).tryBody input ctx
        = Outcome.thrown (Value.err e) := by
      unfold BaseStep.tryBody
      rw [hv]
    unfold BaseStep.execute
    rw [hbody]
    rfl
  refine ⟨hexec run1, (hexec run1).trans (hexec run2).symm, by decide,
    "Expected ", ", received string", by decide⟩

/-- Witness for C9: a number-schema step invoked on the string invalid
fails with the ZodError naming the expected type, without running the
wrapped function. -/
theorem c9_witness :
    (BaseStep.mk "num" (some numberSchema) none echoStep.run).execute
        (Value.str "invalid") ctx0
      = StepResult.mk false Value.undef
          (some (ErrorV.mk "ZodError" "Expected number, received string" none)) [] :=
  (c9_input_validation "num" numberSchema none echoStep.run failStep.run
    (Value.str "invalid") ctx0
    (ErrorV.mk "ZodError" "Expected number, received string" none) (by decide)).1

/-- Claim C10: MastraAdapter.execute never rejects (the function is
total): whatever the inner executeWorkflow does, through the execute
override, a step or schema validation, a throw of any value v yields a
failure result with v coerced to an Error, a normal return of d yields
a success result carrying d, and in both cases the results field is
the (frozen) empty array, so per-step results are never populated on
the provider path. -/
theorem c10_mastra_execute_total (w : MWorkflowInstance) (input : Value)
    (ctx : IStepContext) :
    (MastraAdapter.execute w input ctx).results = []
    ∧ (∀ v, MastraAdapter.executeWorkflow w input ctx = .thrown v →
        MastraAdapter.execute w input ctx
          = IWorkflowExecutionResult.mk false Value.undef (some (toError v)) [])
    ∧ (∀ d, MastraAdapter.executeWorkflow w input ctx = .ok d →
        MastraAdapter.execute w input ctx
          = IWorkflowExecutionResult.mk true d none []) := by
  refine ⟨?_, ?_, ?_⟩
  · unfold MastraAdapter.execute
    cases hE : MastraAdapter.executeWorkflow w input ctx <;> rfl
  · intro v hv
    unfold MastraAdapter.execute
    rw [hv]
    rfl
  · intro d hd
    unfold MastraAdapter.execute
    rw [hd]
    rfl

/-- Witness for C10: a workflow instance whose execute override throws
the non-Error string kaboom is absorbed into a failure result with a
coerced Error and an empty results array. -/
theorem c10_witness :
    MastraAdapter.execute boomInst Value.undef ctx0
      = IWorkflowExecutionResult.mk false Value.undef
          (some (ErrorV.mk "Error" "kaboom" none)) []
    ∧ (MastraAdapter.execute boomInst Value.undef ctx0).results = [] := by
  have h := (c10_mastra_execute_total boomInst Value.undef ctx0).2.1
    (Value.str "kaboom") rfl
  exact ⟨h, (c10_mastra_execute_total boomInst Value.undef ctx0).1⟩
